import Mathlib

/-!
# Verification of the MistHelper SSH runner core (`junk/ssh_runner_v2.py`)

A shallow embedding, in Lean 4, of the pure/algorithmic core of
`EnhancedSSHRunner`: the input validators, the filename sanitizer, the
host/command list parsers, the thread-count clamp, the `connect` /
`execute_command` control flow, the shell-mode output-collection loop
(the "harvester") with its drain sub-loop, and the multi-host
orchestrator's report aggregation.

Conventions of the embedding:
* Python strings are modelled as `List Char`; Python's `str.strip`,
  `str.split`, slicing and substring tests are re-implemented below.
* Python class-`re` character class `\w` is modelled over ASCII
  (`Char.isAlphanum` plus underscore); the repository only feeds
  hostnames and filenames through these functions.
* Wall-clock time inside the harvester is modelled in centiseconds
  (1 cs = 10 ms, the granularity of the `time.sleep(0.01)` pacing), and
  every channel read is charged at least 1 cs, so that elapsed time is a
  strictly increasing `Nat`.  The SSH channel is modelled as a function
  `Nat → Option Nat`: poll number `n` either has no data ready (`none`)
  or `some sz` bytes available to read.
* External collaborators (paramiko transport, `ipaddress` parsing,
  thread scheduling) are abstracted as explicit parameters; the claims
  proved below are independent of those parameters, and each such
  parameter is noted where it is introduced.
-/

namespace MistHelper

/-! ## Python string primitives -/

/-- Python `str.strip(chars)` from the left: drop leading characters
satisfying `p`. -/
def lstrip (p : Char → Bool) (l : List Char) : List Char :=
  l.dropWhile p

/-- Python `str.strip(chars)` from the right: drop trailing characters
satisfying `p`. -/
def rstrip (p : Char → Bool) (l : List Char) : List Char :=
  (l.reverse.dropWhile p).reverse

/-- Python `str.strip(chars)`: drop the characters satisfying `p` from
both ends. -/
def pyStrip (p : Char → Bool) (l : List Char) : List Char :=
  rstrip p (lstrip p l)

/-- The Python default-whitespace set used by bare `str.strip()`:
space, tab, newline, vertical tab, form feed, carriage return. -/
def pyWhitespace (c : Char) : Bool :=
  c == ' ' || c == '\t' || c == '\n' || c == '\x0b' || c == '\x0c' || c == '\r'

/-- The quote characters stripped by `strip('\'"')` in
`parse_command_list`. -/
def quoteChar (c : Char) : Bool :=
  c == '\'' || c == '"'

/-- Python `str.split(sep)` for a one-character separator: splitting
never drops empty fields, and the result list is always non-empty. -/
def splitOnChar (sep : Char) : List Char → List (List Char)
  | [] => [[]]
  | c :: cs =>
    match splitOnChar sep cs with
    | [] => [[]]
    | a :: as => if c == sep then [] :: a :: as else (c :: a) :: as

/-- Python `needle in haystack` substring test. -/
def containsSub (needle : List Char) : List Char → Bool
  | [] => needle.isEmpty
  | c :: cs => needle.isPrefixOf (c :: cs) || containsSub needle cs

/-- Python `str.lower()`, restricted to the ASCII case mapping. -/
def pyLower (l : List Char) : List Char :=
  l.map Char.toLower

/-- Python `str.upper()`, restricted to the ASCII case mapping. -/
def pyUpper (l : List Char) : List Char :=
  l.map Char.toUpper

/-! ## Validator (`EnhancedSSHRunner` static methods) -/

/-- One character of the RFC-1123 label body in the hostname regular
expression: `[a-zA-Z0-9\-]`. -/
def labelChar (c : Char) : Bool :=
  c.isAlphanum || c == '-'

/-- One DNS label of the hostname regular expression
`[a-zA-Z0-9]([a-zA-Z0-9\-]{0,61}[a-zA-Z0-9])?`: non-empty, at most 63
characters, alphanumeric first and last characters, hyphens allowed in
between. -/
def isLabel (l : List Char) : Bool :=
  !l.isEmpty && l.length ≤ 63 && l.all labelChar
    && (l.headD 'a').isAlphanum && (l.getLastD 'a').isAlphanum

/-- Full match of the hostname pattern
`^([label]\.)*[label]$` from `validate_hostname`: every dot-separated
field is a valid label (so the empty string, leading/trailing dots and
empty fields are all rejected, exactly as by the regular expression). -/
def hostnamePatternMatch (l : List Char) : Bool :=
  (splitOnChar '.' l).all isLabel

/-- `hostname.rstrip('.')` — remove all trailing dots. -/
def rstripDots (l : List Char) : List Char :=
  rstrip (fun c => c == '.') l

/-- `EnhancedSSHRunner.validate_hostname`.  The `try ipaddress.ip_address`
branch delegates to the Python standard library; it is abstracted as the
predicate parameter `ipParse` (every theorem below holds for an
arbitrary `ipParse`). -/
def validate_hostname (ipParse : List Char → Bool) (hostname : List Char) : Bool :=
  if hostname.isEmpty then false
  else if 253 < hostname.length then false
  else if ipParse hostname then true
  else hostnamePatternMatch (rstripDots hostname)

/-- `EnhancedSSHRunner.validate_port`: integers in `[1, 65535]`. -/
def validate_port (port : Int) : Bool :=
  1 ≤ port && port ≤ 65535

/-- `EnhancedSSHRunner.validate_timeout`: integers in `[1, 3600]`. -/
def validate_timeout (timeout : Int) : Bool :=
  1 ≤ timeout && timeout ≤ 3600

/-- One character of the username pattern `[a-zA-Z0-9._-]`. -/
def usernameChar (c : Char) : Bool :=
  c.isAlphanum || c == '.' || c == '_' || c == '-'

/-- `EnhancedSSHRunner.validate_username`: 1–32 characters drawn from
`[a-zA-Z0-9._-]`. -/
def validate_username (username : List Char) : Bool :=
  !username.isEmpty && username.length ≤ 32 && username.all usernameChar

/-- `EnhancedSSHRunner.validate_command`: non-empty, at most 1000
characters, no NUL byte. -/
def validate_command (command : List Char) : Bool :=
  !command.isEmpty && command.length ≤ 1000 && !command.contains '\x00'

/-- `EnhancedSSHRunner.validate_thread_count`.  `cpuCount` abstracts
`multiprocessing.cpu_count()` (only reached when the requested count is
not positive). -/
def validate_thread_count (threadCount maxHosts cpuCount : Int) : Int :=
  if threadCount ≤ 0 then min maxHosts cpuCount
  else
    let maxReasonableThreads := min 50 (maxHosts * 2)
    min threadCount (min maxReasonableThreads maxHosts)

/-! ## `execute_command` dispatch (claim C9)

`execute_command` first checks `self.client`; with no active connection
it returns the error triple without touching any channel.  The connected
case dispatches to `_execute_with_shell` / `_execute_direct`, abstracted
here as the function parameter `run`; the second component of the result
counts how many times a channel-using execution path was entered. -/

/-- The error message returned by `execute_command` when `self.client`
is `None`. -/
def noConnectionMsg : List Char := "No active SSH connection".toList

/-- `EnhancedSSHRunner.execute_command`, as a function of the optional
client handle.  Returns the `(success, stdout, stderr)` triple together
with the number of channel executions performed. -/
def execute_command {Client : Type} (client : Option Client)
    (run : Client → Bool × List Char × List Char) :
    (Bool × List Char × List Char) × Nat :=
  match client with
  | none => ((false, [], noConnectionMsg), 0)
  | some c => (run c, 1)


/-! ## Command-list parsing (claim C6) -/

/-- One element of the command list after
`cmd.strip().strip('\'"').strip()`. -/
def cleanCommand (cmd : List Char) : List Char :=
  pyStrip pyWhitespace (pyStrip quoteChar (pyStrip pyWhitespace cmd))

/-- The command list accumulated by `parse_command_list`'s loop before
the 50-element cap: truncate the raw string to 50000 characters, strip
outer quotes, split on commas, clean each element, skip empty elements
and keep exactly those that pass `validate_command` (the loop's
`continue`-on-empty followed by the validation test is one filter). -/
def validCommandsOf (s : List Char) : List (List Char) :=
  if s.isEmpty then []
  else
    let s1 := s.take 50000
    let s2 := pyStrip quoteChar s1
    ((splitOnChar ',' s2).map cleanCommand).filter
      (fun c => !c.isEmpty && validate_command c)

/-- `EnhancedSSHRunner.parse_command_list`: the validated commands,
hard-capped to the first 50. -/
def parse_command_list (s : List Char) : List (List Char) :=
  if 50 < (validCommandsOf s).length then (validCommandsOf s).take 50
  else validCommandsOf s

/-! ## Filename sanitisation (claim C5) -/

/-- A character kept by `re.sub(r'[^\w\-_\.]', '_', filename)`:
ASCII `\w` (alphanumeric or underscore), hyphen, or dot. -/
def keepChar (c : Char) : Bool :=
  c.isAlphanum || c == '_' || c == '-' || c == '.'

/-- The substitution performed by
`re.sub(r'[^\w\-_\.]', '_', filename)` on one character. -/
def subChar (c : Char) : Char :=
  if keepChar c then c else '_'

/-- The trim set of `sanitized.strip('.-')`. -/
def dotDash (c : Char) : Bool :=
  c == '.' || c == '-'

/-- The Windows reserved device names guarded against by
`sanitize_filename`. -/
def reservedNames : List (List Char) :=
  ["CON".toList, "PRN".toList, "AUX".toList, "NUL".toList,
   "COM1".toList, "COM2".toList, "COM3".toList, "COM4".toList,
   "COM5".toList, "COM6".toList, "COM7".toList, "COM8".toList,
   "COM9".toList, "LPT1".toList, "LPT2".toList, "LPT3".toList,
   "LPT4".toList, "LPT5".toList, "LPT6".toList, "LPT7".toList,
   "LPT8".toList, "LPT9".toList]

/-- The `if not sanitized: sanitized = "sanitized_host"` fallback of
`sanitize_filename`. -/
def sanitizeFallback (s : List Char) : List Char :=
  if s.isEmpty then "sanitized_host".toList else s

/-- The `if len(sanitized) > 100: sanitized = sanitized[:100]`
truncation of `sanitize_filename`. -/
def sanitizeTruncate (s : List Char) : List Char :=
  if 100 < s.length then s.take 100 else s

/-- The `if sanitized.upper() in reserved_names: sanitized =
f"host_{sanitized}"` renaming of `sanitize_filename`. -/
def sanitizeReserve (s : List Char) : List Char :=
  if pyUpper s ∈ reservedNames then "host_".toList ++ s else s

/-- `EnhancedSSHRunner.sanitize_filename`: empty input falls back to
`"unknown"`; otherwise substitute disallowed characters with `_`, trim
leading/trailing `.`/`-`, fall back to `"sanitized_host"` if nothing is
left, truncate to 100 characters, and prefix `"host_"` if the result is
a reserved device name (compared case-insensitively). -/
def sanitize_filename (filename : List Char) : List Char :=
  if filename.isEmpty then "unknown".toList
  else sanitizeReserve (sanitizeTruncate (sanitizeFallback
    (pyStrip dotDash (filename.map subChar))))

/-! ## Output harvester: the shell-mode collection loop (claims C2, C4)

`_execute_with_shell`'s collection loop, modelled in centiseconds
(1 cs = 10 ms).  Source constants: `no_data_timeout = 3.0` s (300 cs),
`max_total_wait = 120` s (12000 cs), hard hang detection at `90` s
(9000 cs), `max_output_size = 100*1024*1024` bytes, main reads of up to
`131072` bytes, `max_drain_time = 30` s (3000 cs).  The channel is a
function from poll number to the optional size of the ready data
(`recv_ready()`/`recv`).  Time charges: a retained read costs the
`time.sleep(0.01)` pacing (1 cs), an idle poll the `time.sleep(0.05)`
(5 cs), and a drain read 1 cs (the time a real 256 KB read takes; the
drain loop has no sleep on its ready path).  The loop body is a
fuel-indexed step function; `none` means the fuel ran out, so proving
the result `isSome` for the fixed fuel proves termination within a
bounded number of loop iterations. -/

/-- State of the collection loop: `elapsed` models
`time.time() - start_time`, `lastData` models
`last_data_time - start_time`, `bytes` the retained payload bytes of
`output`, `chunks` is `chunk_count`, and `polls` counts the
`recv_ready()` polls made so far (the channel is indexed by poll
number). -/
structure CollectState where
  elapsed : Nat
  lastData : Nat
  bytes : Nat
  chunks : Nat
  polls : Nat
  deriving DecidableEq

/-- How the collection loop ended. -/
inductive ExitReason
  | whileExpired   -- the guard `while elapsed < max_total_wait` failed
  | hardTimeout    -- the 90-second hang detection fired
  | silence        -- no new data for `no_data_timeout` seconds
  | drainSilence   -- post-truncation drain observed silence
  | drainTimeout   -- post-truncation drain exhausted `max_drain_time`
  deriving DecidableEq

/-- Result of the collection loop: final state, whether the
`[OUTPUT TRUNCATED ...]` marker was appended to the output, whether the
`[COMMAND TIMEOUT ...]` marker was, and the exit reason. -/
structure CollectResult where
  st : CollectState
  truncated : Bool
  timedOut : Bool
  reason : ExitReason
  deriving DecidableEq

/-- The post-truncation drain loop: read and discard
(`shell.recv(262144)`) while data is ready, resetting the silence
timer; exit on 3 s of silence or after 30 s of draining. -/
def drainLoop (chan : Nat → Option Nat) (drainStart : Nat) :
    Nat → CollectState → Option CollectResult
  | 0, _ => none
  | fuel + 1, st =>
    if 3000 ≤ st.elapsed - drainStart then
      some ⟨st, true, false, .drainTimeout⟩
    else
      match chan st.polls with
      | some _ =>
        drainLoop chan drainStart fuel
          ⟨st.elapsed + 1, st.elapsed, st.bytes, st.chunks, st.polls + 1⟩
      | none =>
        if 300 ≤ st.elapsed - st.lastData then
          some ⟨st, true, false, .drainSilence⟩
        else
          drainLoop chan drainStart fuel
            ⟨st.elapsed + 5, st.lastData, st.bytes, st.chunks, st.polls + 1⟩

/-- The collection loop of `_execute_with_shell`: on each iteration,
check the `while` guard (120 s) and the hang detection (90 s, appending
the timeout marker); then poll the channel.  Ready data (capped at the
128 KB read size) is appended and resets the silence timer; if the
retained size then exceeds `max_output_size` the truncation marker is
appended and the drain loop takes over.  An idle poll exits once 3 s
have passed since the last data. -/
def collectLoop (chan : Nat → Option Nat) :
    Nat → CollectState → Option CollectResult
  | 0, _ => none
  | fuel + 1, st =>
    if 12000 ≤ st.elapsed then some ⟨st, false, false, .whileExpired⟩
    else if 9000 < st.elapsed then some ⟨st, false, true, .hardTimeout⟩
    else
      match chan st.polls with
      | some sz =>
        if 104857600 < st.bytes + min sz 131072 then
          drainLoop chan st.elapsed fuel
            ⟨st.elapsed, st.elapsed, st.bytes + min sz 131072,
              st.chunks + 1, st.polls + 1⟩
        else
          collectLoop chan fuel
            ⟨st.elapsed + 1, st.elapsed, st.bytes + min sz 131072,
              st.chunks + 1, st.polls + 1⟩
      | none =>
        if 300 ≤ st.elapsed - st.lastData then
          some ⟨st, false, false, .silence⟩
        else
          collectLoop chan fuel
            ⟨st.elapsed + 5, st.lastData, st.bytes, st.chunks, st.polls + 1⟩

/-- One whole collection phase, from `last_data_time = time.time()`
(elapsed 0) with empty output, with fuel amply exceeding the 12002
iterations any run can use. -/
def collect (chan : Nat → Option Nat) : Option CollectResult :=
  collectLoop chan 15200 ⟨0, 0, 0, 0, 0⟩

/-! ## Shell-mode success determination (claim C3)

`_execute_with_shell` judges a command from its cleaned output: success
starts as "cleaned output non-empty"; if any shell-cleanup indicator
occurs anywhere in the lower-cased output, the error scan is skipped
entirely; otherwise the first error pattern found flips success to
false. -/

/-- The fixed error-indicating substrings of `_execute_with_shell`. -/
def error_patterns : List (List Char) :=
  ["command not found".toList, "syntax error".toList,
   "permission denied".toList, "authentication failed".toList,
   "connection refused".toList, "host unreachable".toList,
   "network unreachable".toList, "no such file or directory".toList]

/-- The shell-cleanup indicator substrings of `_execute_with_shell`
(checked with Python `in`, so the fourth entry is the literal text
`"connection to .* closed"`, not a pattern). -/
def shell_cleanup_indicators : List (List Char) :=
  ["invalid command: [xit]".toList, "unknown command: xit".toList,
   "invalid command: exit".toList, "connection to .* closed".toList]

/-- The success determination of `_execute_with_shell` as a function of
the cleaned output: `success = len(cleaned_output) > 0`, the
`is_shell_cleanup` scan (a loop with `break`, i.e. `any`), and the
error-pattern scan (a loop setting `success = False` and breaking on the
first hit, i.e. a conditional returning `false` on `any`). -/
def success_determination (cleaned : List Char) : Bool :=
  if shell_cleanup_indicators.any (fun p => containsSub p (pyLower cleaned)) then
    decide (0 < cleaned.length)
  else if error_patterns.any (fun p => containsSub p (pyLower cleaned)) then false
  else decide (0 < cleaned.length)

/-- Pattern `p` occurs in `l` at offset `i`. -/
def occursAtB (p l : List Char) (i : Nat) : Bool :=
  p.isPrefixOf (l.drop i)

/-- The occurrence of length `len` at offset `i` of `l` lies entirely
inside some occurrence of a shell-cleanup indicator. -/
def coveredByArtifactB (l : List Char) (i len : Nat) : Bool :=
  shell_cleanup_indicators.any fun a =>
    (List.range (l.length + 1)).any fun j =>
      occursAtB a l j && decide (j ≤ i) && decide (i + len ≤ j + a.length)

/-- Modelled from the spec's words (claim C3): the command is successful
iff the cleaned output is non-empty and every occurrence of an
error-indicating substring is itself part of a recognized shell-cleanup
artifact occurrence. -/
def successSpecC3 (cleaned : List Char) : Bool :=
  !cleaned.isEmpty && error_patterns.all fun p =>
    (List.range ((pyLower cleaned).length + 1)).all fun i =>
      !occursAtB p (pyLower cleaned) i
        || coveredByArtifactB (pyLower cleaned) i p.length

/-! ## `connect` (claim C8)

`connect` validates all four inputs before any network I/O.  The
paramiko handshake is an external collaborator; its outcome is
abstracted as a `TransportOutcome`, one constructor per `except` clause
of the source.  The second component of `connect`'s result counts how
many times the transport handshake (`self.client.connect(...)`) was
attempted; the source attempts it exactly once, inside a single `try`
with no retry loop. -/

/-- The possible outcomes of the single paramiko
`SSHClient.connect` call, one per `except` clause of `connect`. -/
inductive TransportOutcome
  | ok
  | gaiError        -- `socket.gaierror`
  | socketTimeout   -- `socket.timeout`
  | authException   -- `paramiko.AuthenticationException`
  | sshException    -- `paramiko.SSHException`
  | otherError      -- any other `Exception`
  deriving DecidableEq

/-- The distinct reported results of `connect`: the four typed
validation failures (reported before any network I/O), success, and the
five handshake-failure classifications. -/
inductive ConnectOutcome
  | connected
  | invalidHostname
  | invalidUsername
  | invalidPort
  | emptyPassword
  | dnsResolutionError
  | connectionTimeout
  | authenticationFailed
  | sshProtocolError
  | unexpectedError
  deriving DecidableEq

/-- `EnhancedSSHRunner.connect`: validate hostname, username, port and
password in that order, failing fast with zero handshake attempts; then
attempt the handshake once and classify its outcome. -/
def connect (ipParse : List Char → Bool) (hostname username password : List Char)
    (port : Int) (transport : TransportOutcome) : ConnectOutcome × Nat :=
  if !validate_hostname ipParse hostname then (.invalidHostname, 0)
  else if !validate_username username then (.invalidUsername, 0)
  else if !validate_port port then (.invalidPort, 0)
  else if password.isEmpty then (.emptyPassword, 0)
  else
    match transport with
    | .ok => (.connected, 1)
    | .gaiError => (.dnsResolutionError, 1)
    | .socketTimeout => (.connectionTimeout, 1)
    | .authException => (.authenticationFailed, 1)
    | .sshException => (.sshProtocolError, 1)
    | .otherError => (.unexpectedError, 1)

/-! ## Multi-host orchestrator (claim C1) -/

/-- The behaviour of one host's task, as observed by the orchestrator:
the inner session either reports success, reports failure, or raises an
exception carrying a message (caught by `run_ssh_command_on_host`'s
`except` clause). -/
inductive HostOutcome
  | success
  | failure
  | raises (msg : List Char)

/-- `EnhancedSSHRunner.run_ssh_command_on_host`: runs the session for one
host (single- or multi-command path) and returns
`(hostname, success, results_summary)`; an exception anywhere inside is
caught and converted into a failure result rather than propagating. -/
def run_ssh_command_on_host (commands : List (List Char))
    (behavior : List Char → HostOutcome) (host : List Char) :
    List Char × Bool × List Char :=
  match behavior host with
  | .raises msg => (host, false, "Error: ".toList ++ msg)
  | .success =>
    if commands.length == 1 then
      (host, true, "Single command: ".toList ++ commands.headD [])
    else
      (host, true, (toString commands.length).toList ++ " commands executed".toList)
  | .failure =>
    if commands.length == 1 then
      (host, false, "Single command: ".toList ++ commands.headD [])
    else
      (host, false, (toString commands.length).toList ++ " commands executed".toList)

/-- The summary dictionary returned by
`run_ssh_commands_multi_host`. -/
structure RunReport where
  total : Nat
  successful : Nat
  failed : Nat
  successful_hosts : List (List Char)
  failed_hosts : List (List Char)
  results : List (List Char × Bool × List Char)

/-- `EnhancedSSHRunner.run_ssh_commands_multi_host`: one task is
submitted per host; completed tasks are consumed in `as_completed`
order, which the thread pool does not fix, so the aggregation is stated
over an arbitrary completion-ordered list `completed` (hypothesised, in
the theorems, to be a permutation of the submitted tasks' results).
Each completed `(hostname, success, summary)` is appended to
`successful_hosts` or `failed_hosts` according to its success flag, and
the final report carries the list lengths as `successful`/`failed`. -/
def run_ssh_commands_multi_host (hosts : List (List Char))
    (completed : List (List Char × Bool × List Char)) : RunReport :=
  let successful_hosts := (completed.filter (fun r => r.2.1)).map (fun r => r.1)
  let failed_hosts := (completed.filter (fun r => !r.2.1)).map (fun r => r.1)
  ⟨hosts.length, successful_hosts.length, failed_hosts.length,
    successful_hosts, failed_hosts, completed⟩

/-! ## Concrete inputs used by witnesses and counterexamples -/

/-- A concrete three-host run exercising C1: one success, one failure,
one raised exception, with the tasks completing in reverse submission
order. -/
def c1Hosts : List (List Char) := ["h1".toList, "h2".toList, "h3".toList]

/-- The per-host behaviour of the concrete C1 run. -/
def c1Behavior (host : List Char) : HostOutcome :=
  if host == "h1".toList then .success
  else if host == "h2".toList then .failure
  else .raises "boom".toList

/-- A command string of 60 valid entries (`"ok,ok,...,ok"`). -/
def sixtyCommandInput : List Char :=
  (String.intercalate "," (List.replicate 60 "ok")).toList

/-- The input that refutes idempotence: 99 `a`s then `".b"`.  Its
sanitised form is 101 characters before truncation, and truncation to
100 characters leaves a trailing dot, which a second sanitisation then
strips. -/
def c5input : List Char := List.replicate 99 'a' ++ ['.', 'b']

/-- A channel that has 128 KB of data ready at each of its first 801
polls and then goes silent: enough to push the retained output past
`max_output_size`. -/
def unboundedChan : Nat → Option Nat :=
  fun n => if n < 801 then some 131072 else none

/-- A cleaned output containing both a shell-cleanup artifact and an
unrelated genuine error.  It is reachable: a raw line
`"unknown command: x\rit"` passes every artifact/prompt line filter
(none of the filtered substrings spans the embedded `\r`) and the
carriage-return removal then reassembles `"unknown command: xit"` in the
cleaned output. -/
def c3cleaned : List Char := "unknown command: xit\npermission denied".toList

/-- A 253-character valid label sequence (three 63-character labels and
one 61-character label). -/
def longLabelSeq : List Char :=
  List.replicate 63 'a' ++ '.' :: (List.replicate 63 'a'
    ++ '.' :: (List.replicate 63 'a' ++ '.' :: List.replicate 61 'a'))

/-! ## Theorems: claims C1, C7, C8, C9 -/

/-- **C7.** For every positive requested thread count, the effective
worker-pool size computed by `validate_thread_count` equals
`min(requested, 2×host_count, 50, host_count)`. -/
theorem validate_thread_count_clamps (t h cpu : Int) (ht : 0 < t) :
    validate_thread_count t h cpu = min (min t (h * 2)) (min 50 h) := by
  unfold validate_thread_count
  rw [if_neg (by omega)]
  rcases le_total t (h * 2) with h1 | h1 <;>
    rcases le_total t 50 with h2 | h2 <;>
    rcases le_total h (h * 2) with h3 | h3 <;>
    rcases le_total (50 : Int) (h * 2) with h4 | h4 <;>
    simp only [min_def] <;> split_ifs <;> omega

/-- Witness for C7: 1000 requested threads against 5 hosts (with 8
CPUs) are clamped to `min(min(1000, 10), min(50, 5)) = 5`. -/
theorem validate_thread_count_clamps_witness :
    (0 : Int) < 1000 ∧ validate_thread_count 1000 5 8 = 5 := by
  refine ⟨by decide, ?_⟩
  rw [validate_thread_count_clamps 1000 5 8 (by decide)]
  decide


/-- **C1.** For every host list, every mixture of per-host outcomes
(success, failure, or a raised exception) and every completion order of
the submitted tasks, the final `RunReport` satisfies
`total = successful + failed` and
`len(successful_hosts) + len(failed_hosts) = total`, with `total` the
number of submitted hosts. -/
theorem run_report_invariant (hosts : List (List Char))
    (commands : List (List Char)) (behavior : List Char → HostOutcome)
    (completed : List (List Char × Bool × List Char))
    (hperm : completed.Perm (hosts.map (run_ssh_command_on_host commands behavior))) :
    (run_ssh_commands_multi_host hosts completed).successful
        + (run_ssh_commands_multi_host hosts completed).failed
      = (run_ssh_commands_multi_host hosts completed).total
    ∧ (run_ssh_commands_multi_host hosts completed).successful_hosts.length
        + (run_ssh_commands_multi_host hosts completed).failed_hosts.length
      = (run_ssh_commands_multi_host hosts completed).total := by
  have hlen : completed.length = hosts.length := by
    rw [hperm.length_eq, List.length_map]
  have hsplit := List.length_eq_length_filter_add (l := completed) (fun r => r.2.1)
  constructor
  · simp only [run_ssh_commands_multi_host, List.length_map]
    omega
  · simp only [run_ssh_commands_multi_host, List.length_map]
    omega


/-- Witness for C1: the three-host mixed-outcome run, completing in
reverse order, satisfies both counting invariants. -/
theorem run_report_invariant_witness :
    (run_ssh_commands_multi_host c1Hosts
        ((c1Hosts.map (run_ssh_command_on_host ["show ver".toList] c1Behavior)).reverse)).successful
      + (run_ssh_commands_multi_host c1Hosts
        ((c1Hosts.map (run_ssh_command_on_host ["show ver".toList] c1Behavior)).reverse)).failed
      = (run_ssh_commands_multi_host c1Hosts
        ((c1Hosts.map (run_ssh_command_on_host ["show ver".toList] c1Behavior)).reverse)).total
    ∧ (run_ssh_commands_multi_host c1Hosts
        ((c1Hosts.map (run_ssh_command_on_host ["show ver".toList] c1Behavior)).reverse)).successful_hosts.length
      + (run_ssh_commands_multi_host c1Hosts
        ((c1Hosts.map (run_ssh_command_on_host ["show ver".toList] c1Behavior)).reverse)).failed_hosts.length
      = (run_ssh_commands_multi_host c1Hosts
        ((c1Hosts.map (run_ssh_command_on_host ["show ver".toList] c1Behavior)).reverse)).total :=
  run_report_invariant c1Hosts ["show ver".toList] c1Behavior _ (List.reverse_perm _)

/-- **C8.** `connect` validates hostname, username, port and password
before any network I/O: on any invalid input it returns a typed
validation error with zero handshake attempts; it never attempts the
handshake more than once (no retry); and with valid inputs each
handshake outcome is classified into its own distinct reported error
(DNS resolution, socket timeout, authentication, protocol, unknown). -/
theorem connect_validates_then_classifies (ipParse : List Char → Bool)
    (h u pw : List Char) (port : Int) (tr : TransportOutcome) :
    ((validate_hostname ipParse h = false ∨ validate_username u = false
        ∨ validate_port port = false ∨ pw = []) →
      (connect ipParse h u pw port tr).2 = 0
      ∧ ((connect ipParse h u pw port tr).1 = .invalidHostname
         ∨ (connect ipParse h u pw port tr).1 = .invalidUsername
         ∨ (connect ipParse h u pw port tr).1 = .invalidPort
         ∨ (connect ipParse h u pw port tr).1 = .emptyPassword))
    ∧ (connect ipParse h u pw port tr).2 ≤ 1
    ∧ (validate_hostname ipParse h = true → validate_username u = true →
       validate_port port = true → pw ≠ [] →
        (connect ipParse h u pw port tr).2 = 1
        ∧ (tr = .gaiError → (connect ipParse h u pw port tr).1 = .dnsResolutionError)
        ∧ (tr = .socketTimeout → (connect ipParse h u pw port tr).1 = .connectionTimeout)
        ∧ (tr = .authException → (connect ipParse h u pw port tr).1 = .authenticationFailed)
        ∧ (tr = .sshException → (connect ipParse h u pw port tr).1 = .sshProtocolError)
        ∧ (tr = .otherError → (connect ipParse h u pw port tr).1 = .unexpectedError))
    ∧ (    ConnectOutcome.dnsResolutionError ≠ .connectionTimeout
         ∧ ConnectOutcome.dnsResolutionError ≠ .authenticationFailed
         ∧ ConnectOutcome.dnsResolutionError ≠ .sshProtocolError
         ∧ ConnectOutcome.dnsResolutionError ≠ .unexpectedError
         ∧ ConnectOutcome.connectionTimeout ≠ .authenticationFailed
         ∧ ConnectOutcome.connectionTimeout ≠ .sshProtocolError
         ∧ ConnectOutcome.connectionTimeout ≠ .unexpectedError
         ∧ ConnectOutcome.authenticationFailed ≠ .sshProtocolError
         ∧ ConnectOutcome.authenticationFailed ≠ .unexpectedError
         ∧ ConnectOutcome.sshProtocolError ≠ .unexpectedError) := by
  refine ⟨?_, ?_, ?_, by decide⟩
  · intro hbad
    unfold connect
    rcases hbad with hb | hb | hb | hb
    · simp [hb]
    · cases hv : validate_hostname ipParse h <;> simp [hv, hb]
    · cases hv : validate_hostname ipParse h <;>
        cases hu : validate_username u <;> simp [hv, hu, hb]
    · cases hv : validate_hostname ipParse h <;>
        cases hu : validate_username u <;>
        cases hp : validate_port port <;> simp [hv, hu, hp, hb]
  · unfold connect
    cases hv : validate_hostname ipParse h <;>
      cases hu : validate_username u <;>
      cases hp : validate_port port <;>
      cases hpw : pw.isEmpty <;>
      cases tr <;> simp [hv, hu, hp, hpw]
  · intro hv hu hp hpw
    have hpw' : pw.isEmpty = false := by
      cases pw with
      | nil => exact absurd rfl hpw
      | cons a l => rfl
    unfold connect
    cases tr <;> simp [hv, hu, hp, hpw']

/-- Witness for the classification half of C8: with valid concrete
inputs and an authentication failure from the transport, `connect`
attempts exactly one handshake and reports the distinct authentication
error. -/
theorem connect_classifies_witness :
    (connect (fun _ => false) "router1.example.com".toList "admin".toList
        "pw".toList 22 .authException).2 = 1
    ∧ (connect (fun _ => false) "router1.example.com".toList "admin".toList
        "pw".toList 22 .authException).1 = .authenticationFailed := by
  have hmain := (connect_validates_then_classifies (fun _ => false)
    "router1.example.com".toList "admin".toList "pw".toList 22 .authException).2.2.1
    (by decide) (by decide) (by decide) (by decide)
  exact ⟨hmain.1, hmain.2.2.2.1 rfl⟩

/-- **C9.** `execute_command` with no active client (`client is None`)
returns exactly `(False, "", "No active SSH connection")` and enters no
channel-using execution path, for every possible execution behaviour of
the connected case. -/
theorem execute_command_no_client {Client : Type}
    (run : Client → Bool × List Char × List Char) :
    execute_command none run = ((false, [], noConnectionMsg), 0) := rfl

/-! ## Theorems: claim C6 -/

/-- **C6.** `parse_command_list` never returns more than 50 commands,
every returned command passes `validate_command`, and whenever the
input yields exactly 60 valid entries the result is exactly the first
50 of them in their original order. -/
theorem parse_command_list_caps_at_50 (s : List Char) :
    (parse_command_list s).length ≤ 50
    ∧ (∀ c ∈ parse_command_list s, validate_command c = true)
    ∧ ((validCommandsOf s).length = 60 →
        parse_command_list s = (validCommandsOf s).take 50
        ∧ (parse_command_list s).length = 50) := by
  refine ⟨?_, ?_, ?_⟩
  · unfold parse_command_list
    split
    · rw [List.length_take]
      omega
    · omega
  · intro c hc
    have hmem : c ∈ validCommandsOf s := by
      unfold parse_command_list at hc
      split at hc
      · exact List.mem_of_mem_take hc
      · exact hc
    unfold validCommandsOf at hmem
    split at hmem
    · simp at hmem
    · have := (List.mem_filter.mp hmem).2
      exact (Bool.and_eq_true _ _ |>.mp this).2
  · intro h60
    unfold parse_command_list
    rw [if_pos (by omega)]
    refine ⟨rfl, ?_⟩
    rw [List.length_take]
    omega


set_option maxRecDepth 100000 in
/-- Witness for C6: the 60-entry input really produces 60 valid entries,
and `parse_command_list` returns exactly the first 50 of them. -/
theorem parse_command_list_caps_at_50_witness :
    parse_command_list sixtyCommandInput = (validCommandsOf sixtyCommandInput).take 50
    ∧ (parse_command_list sixtyCommandInput).length = 50 :=
  (parse_command_list_caps_at_50 sixtyCommandInput).2.2 (by decide)

/-! ## Theorems: claim C5 -/

/-- `rstrip` is Mathlib's `List.rdropWhile`. -/
theorem rstrip_eq_rdropWhile (p : Char → Bool) (l : List Char) :
    rstrip p l = List.rdropWhile p l := rfl

/-- The substitution step only produces kept characters. -/
theorem keepChar_subChar (c : Char) : keepChar (subChar c) = true := by
  unfold subChar
  split
  · assumption
  · decide

/-- Membership survives `pyStrip` (it only removes characters from the
ends). -/
theorem mem_of_mem_pyStrip {p : Char → Bool} {l : List Char} {c : Char}
    (hc : c ∈ pyStrip p l) : c ∈ l := by
  unfold pyStrip at hc
  rw [rstrip_eq_rdropWhile] at hc
  exact (List.dropWhile_suffix p).subset ((List.rdropWhile_prefix p _).subset hc)

/-- The first character surviving `pyStrip p` does not satisfy `p`. -/
theorem head_pyStrip_not {p : Char → Bool} {l : List Char} {c : Char}
    {rest : List Char} (h : pyStrip p l = c :: rest) : p c = false := by
  unfold pyStrip at h
  rw [rstrip_eq_rdropWhile] at h
  obtain ⟨t, ht⟩ := List.rdropWhile_prefix p (lstrip p l)
  rw [h] at ht
  unfold lstrip at ht
  have hne : List.dropWhile p l ≠ [] := by
    rw [← ht]
    exact List.cons_ne_nil _ _
  have hhead := List.head_dropWhile_not p l hne
  have hsome : (List.dropWhile p l).head? = some c := by
    rw [← ht]
    rfl
  rw [List.head?_eq_head hne] at hsome
  have : (List.dropWhile p l).head hne = c := by injection hsome
  rw [this] at hhead
  exact hhead

/-- If a list's characters all fail `p` at both ends, `pyStrip p` is the
identity on it. -/
theorem pyStrip_eq_self {p : Char → Bool} {l : List Char}
    (hhead : ∀ c rest, l = c :: rest → p c = false)
    (hlast : ∀ hl : l ≠ [], p (l.getLast hl) = false) :
    pyStrip p l = l := by
  unfold pyStrip lstrip
  have hdw : List.dropWhile p l = l := by
    cases l with
    | nil => rfl
    | cons c rest =>
      rw [List.dropWhile_cons, if_neg]
      rw [hhead c rest rfl]
      simp
  rw [hdw, rstrip_eq_rdropWhile]
  rw [List.rdropWhile_eq_self_iff]
  intro hl
  rw [hlast hl]
  simp

/-- Every reserved device name has at most 4 characters. -/
theorem reservedNames_short : ∀ r ∈ reservedNames, r.length ≤ 4 := by decide

/-- The fallback stage keeps non-emptiness, kept characters and a
non-`.`/`-` first character. -/
theorem sanitizeFallback_props (s : List Char)
    (hkeep : ∀ c ∈ s, keepChar c = true)
    (hhead : ∀ c rest, s = c :: rest → dotDash c = false) :
    sanitizeFallback s ≠ []
    ∧ (∀ c ∈ sanitizeFallback s, keepChar c = true)
    ∧ (∀ c rest, sanitizeFallback s = c :: rest → dotDash c = false) := by
  unfold sanitizeFallback
  split
  · refine ⟨by decide, by decide, ?_⟩
    intro c rest h
    have h1 : 's' = c := by injection h
    rw [← h1]
    decide
  · next hemp => exact ⟨by simpa using hemp, hkeep, hhead⟩

/-- The truncation stage keeps non-emptiness, kept characters and the
first character, and bounds the length by 100. -/
theorem sanitizeTruncate_props (s : List Char) (hne : s ≠ [])
    (hkeep : ∀ c ∈ s, keepChar c = true)
    (hhead : ∀ c rest, s = c :: rest → dotDash c = false) :
    sanitizeTruncate s ≠ []
    ∧ (∀ c ∈ sanitizeTruncate s, keepChar c = true)
    ∧ (∀ c rest, sanitizeTruncate s = c :: rest → dotDash c = false)
    ∧ (sanitizeTruncate s).length ≤ 100 := by
  unfold sanitizeTruncate
  split
  · cases s with
    | nil => exact absurd rfl hne
    | cons a l =>
      have htake : (a :: l).take 100 = a :: l.take 99 := rfl
      rw [htake]
      refine ⟨by simp, ?_, ?_, ?_⟩
      · intro c hc
        rw [← htake] at hc
        exact hkeep c (List.mem_of_mem_take hc)
      · intro c rest h
        have h1 : a = c := by injection h
        exact h1 ▸ hhead a l rfl
      · simp only [List.length_cons, List.length_take]
        omega
  · next hgt => exact ⟨hne, hkeep, hhead, by omega⟩

/-- The reserved-name stage keeps all structural properties and
guarantees the result is itself never a reserved name. -/
theorem sanitizeReserve_props (s : List Char) (hne : s ≠ [])
    (hkeep : ∀ c ∈ s, keepChar c = true)
    (hhead : ∀ c rest, s = c :: rest → dotDash c = false)
    (hlen : s.length ≤ 100) :
    sanitizeReserve s ≠ []
    ∧ (∀ c ∈ sanitizeReserve s, keepChar c = true)
    ∧ (∀ c rest, sanitizeReserve s = c :: rest → dotDash c = false)
    ∧ (sanitizeReserve s).length ≤ 100
    ∧ pyUpper (sanitizeReserve s) ∉ reservedNames := by
  unfold sanitizeReserve
  split
  · next hresv =>
    have hs4 : s.length ≤ 4 := by
      have := reservedNames_short _ hresv
      simpa [pyUpper] using this
    refine ⟨by simp, ?_, ?_, ?_, ?_⟩
    · intro c hc
      rcases List.mem_append.mp hc with h | h
      · fin_cases h <;> decide
      · exact hkeep c h
    · intro c rest h
      have he : ("host_".toList ++ s) = 'h' :: ("ost_".toList ++ s) := rfl
      rw [he] at h
      have h1 : 'h' = c := by injection h
      rw [← h1]
      decide
    · rw [List.length_append]
      have : ("host_".toList).length = 5 := rfl
      omega
    · intro hmem
      have hshort := reservedNames_short _ hmem
      have hlen2 : (pyUpper ("host_".toList ++ s)).length = 5 + s.length := by
        simp [pyUpper]
        omega
      have hpos : 0 < s.length := List.length_pos.mpr hne
      omega
  · next hresv =>
    exact ⟨hne, hkeep, hhead, hlen, hresv⟩

/-- A list each of whose characters is kept by the substitution, whose
first and last characters are not `.`/`-`, of length at most 100 and
not a reserved name, is a fixed point of `sanitize_filename`. -/
theorem sanitize_filename_fixed (m : List Char) (hne : m ≠ [])
    (hkeep : ∀ c ∈ m, keepChar c = true)
    (hhead : ∀ c rest, m = c :: rest → dotDash c = false)
    (hlast : ∀ hl : m ≠ [], dotDash (m.getLast hl) = false)
    (hlen : m.length ≤ 100)
    (hres : pyUpper m ∉ reservedNames) :
    sanitize_filename m = m := by
  have hempty : m.isEmpty = false := by simpa using hne
  have h1 : m.map subChar = m := by
    rw [List.map_congr_left (g := id) (fun c hc => by
      unfold subChar
      rw [if_pos (hkeep c hc)]
      rfl)]
    exact List.map_id m
  have h2 : pyStrip dotDash m = m := pyStrip_eq_self hhead hlast
  unfold sanitize_filename
  rw [if_neg (show ¬(m.isEmpty = true) by simp [hempty]), h1, h2]
  unfold sanitizeFallback
  rw [if_neg (show ¬(m.isEmpty = true) by simp [hempty])]
  unfold sanitizeTruncate
  rw [if_neg (show ¬(100 < m.length) by omega)]
  unfold sanitizeReserve
  rw [if_neg hres]

/-- The structural properties `sanitize_filename` guarantees of its
result: non-empty, made of kept characters, first character not `.`/`-`,
length at most 100, and never itself a reserved name. -/
theorem sanitize_filename_props (x : List Char) :
    sanitize_filename x ≠ []
    ∧ (∀ c ∈ sanitize_filename x, keepChar c = true)
    ∧ (∀ c rest, sanitize_filename x = c :: rest → dotDash c = false)
    ∧ (sanitize_filename x).length ≤ 100
    ∧ pyUpper (sanitize_filename x) ∉ reservedNames := by
  unfold sanitize_filename
  split
  · refine ⟨by decide, by decide, ?_, by decide, by decide⟩
    intro c rest h
    have h1 : 'u' = c := by injection h
    rw [← h1]
    decide
  · have hkeep1 : ∀ c ∈ x.map subChar, keepChar c = true := by
      intro c hc
      obtain ⟨a, _, ha⟩ := List.mem_map.mp hc
      rw [← ha]
      exact keepChar_subChar a
    have hkeep2 : ∀ c ∈ pyStrip dotDash (x.map subChar), keepChar c = true :=
      fun c hc => hkeep1 c (mem_of_mem_pyStrip hc)
    have hhead2 : ∀ c rest, pyStrip dotDash (x.map subChar) = c :: rest →
        dotDash c = false := fun c rest h => head_pyStrip_not h
    obtain ⟨hne3, hkeep3, hhead3⟩ := sanitizeFallback_props _ hkeep2 hhead2
    obtain ⟨hne4, hkeep4, hhead4, hlen4⟩ := sanitizeTruncate_props _ hne3 hkeep3 hhead3
    exact sanitizeReserve_props _ hne4 hkeep4 hhead4 hlen4


set_option maxRecDepth 100000 in
/-- **C5 counterexample.** `sanitize_filename` is not idempotent: on 99
`a`s followed by `".b"`, the first pass truncates to `"a"*99 + "."` and
the second pass strips the reintroduced trailing dot. -/
theorem sanitize_filename_not_idempotent :
    sanitize_filename (sanitize_filename c5input) ≠ sanitize_filename c5input
    ∧ sanitize_filename c5input = List.replicate 99 'a' ++ ['.']
    ∧ sanitize_filename (sanitize_filename c5input) = List.replicate 99 'a' := by
  refine ⟨?_, by decide, by decide⟩
  decide

/-- **C5 (amended).** `sanitize_filename` always returns a non-empty
string — for every input, unconditionally — and it is idempotent on
every input whose sanitised form does not end in `.` or `-` (the only
way truncation can break idempotence). -/
theorem sanitize_filename_amended (x : List Char) :
    sanitize_filename x ≠ []
    ∧ (dotDash ((sanitize_filename x).getLastD 'a') = false →
        sanitize_filename (sanitize_filename x) = sanitize_filename x) := by
  obtain ⟨hne, hkeep, hhead, hlen, hres⟩ := sanitize_filename_props x
  refine ⟨hne, ?_⟩
  intro hend
  have hlast : ∀ hl : sanitize_filename x ≠ [],
      dotDash ((sanitize_filename x).getLast hl) = false := by
    intro hl
    rwa [List.getLastD_eq_getLast?, List.getLast?_eq_getLast _ hl,
      Option.getD_some] at hend
  exact sanitize_filename_fixed _ hne hkeep hhead hlast hlen hres

/-! ## Theorems: claims C2 and C4 -/

/-- The drain loop never exhausts its fuel: every iteration advances
`elapsed` by at least 1 cs and the loop exits once 3000 cs have passed
since `drainStart`. -/
theorem drainLoop_isSome (chan : Nat → Option Nat) (ds : Nat) :
    ∀ fuel st, 1 ≤ fuel → ds + 3001 ≤ st.elapsed + fuel →
      (drainLoop chan ds fuel st).isSome = true := by
  intro fuel
  induction fuel with
  | zero => intro st h1 _; omega
  | succ n ih =>
    intro st h1 h2
    unfold drainLoop
    split
    · rfl
    · next hlt =>
      cases hch : chan st.polls with
      | some sz =>
        dsimp only
        apply ih
        · omega
        · dsimp only
          omega
      | none =>
        dsimp only
        split
        · rfl
        · apply ih
          · omega
          · dsimp only
            omega

/-- What the drain loop does: it never touches the retained bytes, it
carries the truncation marker (and no timeout marker), it ends in one
of the two drain exit reasons, and it ends within 3004 cs of
`drainStart`. -/
theorem drainLoop_props (chan : Nat → Option Nat) (ds : Nat) :
    ∀ fuel st r, drainLoop chan ds fuel st = some r →
      r.st.bytes = st.bytes ∧ r.truncated = true ∧ r.timedOut = false
      ∧ (r.reason = .drainSilence ∨ r.reason = .drainTimeout)
      ∧ r.st.elapsed ≤ max st.elapsed (ds + 3004) := by
  intro fuel
  induction fuel with
  | zero => intro st r hr; exact absurd hr (by simp [drainLoop])
  | succ n ih =>
    intro st r hr
    unfold drainLoop at hr
    split at hr
    · next hstop =>
      obtain rfl : (⟨st, true, false, .drainTimeout⟩ : CollectResult) = r := by
        injection hr
      exact ⟨rfl, rfl, rfl, Or.inr rfl, le_max_left _ _⟩
    · next hgo =>
      cases hch : chan st.polls with
      | some sz =>
        rw [hch] at hr
        dsimp only at hr
        obtain ⟨hb, ht, hto, hre, hel⟩ := ih _ r hr
        refine ⟨hb, ht, hto, hre, ?_⟩
        calc r.st.elapsed ≤ max (st.elapsed + 1) (ds + 3004) := hel
          _ ≤ max st.elapsed (ds + 3004) := by omega
      | none =>
        rw [hch] at hr
        dsimp only at hr
        split at hr
        · obtain rfl : (⟨st, true, false, .drainSilence⟩ : CollectResult) = r := by
            injection hr
          exact ⟨rfl, rfl, rfl, Or.inl rfl, le_max_left _ _⟩
        · obtain ⟨hb, ht, hto, hre, hel⟩ := ih _ r hr
          refine ⟨hb, ht, hto, hre, ?_⟩
          calc r.st.elapsed ≤ max (st.elapsed + 5) (ds + 3004) := hel
            _ ≤ max st.elapsed (ds + 3004) := by omega

/-- The collection loop never exhausts its fuel: each iteration
advances `elapsed` by at least 1 cs, the loop stops recursing past the
90-second hang check, and the drain tail needs at most 3001 more
iterations. -/
theorem collectLoop_isSome (chan : Nat → Option Nat) :
    ∀ fuel st, 1 ≤ fuel → 12002 ≤ st.elapsed + fuel →
      (collectLoop chan fuel st).isSome = true := by
  intro fuel
  induction fuel with
  | zero => intro st h1 _; omega
  | succ n ih =>
    intro st h1 h2
    unfold collectLoop
    split
    · rfl
    · next hwhile =>
      split
      · rfl
      · next hhard =>
        cases hch : chan st.polls with
        | some sz =>
          dsimp only
          split
          · apply drainLoop_isSome
            · omega
            · dsimp only
              omega
          · apply ih
            · omega
            · dsimp only
              omega
        | none =>
          dsimp only
          split
          · rfl
          · apply ih
            · omega
            · dsimp only
              omega

/-- Invariants of a completed collection: starting at most 9005 cs in
with at most `max_output_size` retained bytes, the loop ends within
12004 cs, retains at most `max_output_size` plus one 128 KB read, sets
the timeout marker exactly on the hang-detection exit, and sets the
truncation marker exactly on the drain exits. -/
theorem collectLoop_props (chan : Nat → Option Nat) :
    ∀ fuel st r, collectLoop chan fuel st = some r →
      st.elapsed ≤ 9005 → st.bytes ≤ 104857600 →
      r.st.elapsed ≤ 12004
      ∧ r.st.bytes ≤ 104857600 + 131072
      ∧ (r.reason = .hardTimeout → r.timedOut = true)
      ∧ (r.truncated = true ↔ (r.reason = .drainSilence ∨ r.reason = .drainTimeout)) := by
  intro fuel
  induction fuel with
  | zero => intro st r hr _ _; exact absurd hr (by simp [collectLoop])
  | succ n ih =>
    intro st r hr hel hby
    unfold collectLoop at hr
    split at hr
    · obtain rfl : (⟨st, false, false, .whileExpired⟩ : CollectResult) = r := by
        injection hr
      exact ⟨by dsimp only; omega, by dsimp only; omega, by dsimp only; simp,
        by dsimp only; simp⟩
    · next hwhile =>
      split at hr
      · obtain rfl : (⟨st, false, true, .hardTimeout⟩ : CollectResult) = r := by
          injection hr
        exact ⟨by dsimp only; omega, by dsimp only; omega, by dsimp only; simp,
          by dsimp only; simp⟩
      · next hhard =>
        cases hch : chan st.polls with
        | some sz =>
          rw [hch] at hr
          dsimp only at hr
          split at hr
          · next hsize =>
            obtain ⟨hb, ht, hto, hre, hdel⟩ := drainLoop_props chan _ _ _ r hr
            dsimp only at hb hdel
            have hcap : min sz 131072 ≤ 131072 := min_le_right _ _
            refine ⟨by omega, by omega, ?_, ?_⟩
            · intro h
              rcases hre with h2 | h2 <;> rw [h] at h2 <;> cases h2
            · rw [ht]
              exact ⟨fun _ => hre, fun _ => rfl⟩
          · next hsize =>
            have hcap : min sz 131072 ≤ 131072 := min_le_right _ _
            exact ih _ r hr (by dsimp only; omega) (by dsimp only; omega)
        | none =>
          rw [hch] at hr
          dsimp only at hr
          split at hr
          · obtain rfl : (⟨st, false, false, .silence⟩ : CollectResult) = r := by
              injection hr
            exact ⟨by dsimp only; omega, by dsimp only; omega, by dsimp only; simp,
              by dsimp only; simp⟩
          · exact ih _ r hr (by dsimp only; omega) (by dsimp only; omega)

/-- **C2.** For every channel behaviour, the collection loop terminates
(the fuel, which bounds its iterations, is never exhausted), within
120.04 s of elapsed time in the model; when the 90-second hang ceiling
forces completion the timeout marker has been appended; and on a
channel that never reports data the loop exits by the silence
threshold, 3 s in. -/
theorem collect_terminates (chan : Nat → Option Nat) :
    ∃ r, collect chan = some r
      ∧ r.st.elapsed ≤ 12004
      ∧ (r.reason = .hardTimeout → r.timedOut = true)
      ∧ ((∀ n, chan n = none) → r.reason = .silence ∧ r.st.elapsed = 300) := by
  have hsome := collectLoop_isSome chan 15200 ⟨0, 0, 0, 0, 0⟩ (by omega) (by omega)
  obtain ⟨r, hr⟩ := Option.isSome_iff_exists.mp hsome
  have hr' : collect chan = some r := hr
  obtain ⟨h1, _, h3, h4⟩ :=
    collectLoop_props chan 15200 _ r hr (by decide) (by decide)
  refine ⟨r, hr', h1, h3, ?_⟩
  intro hnone
  have hchan : chan = fun _ => none := funext hnone
  rw [hchan] at hr'
  have hval : collect (fun _ => none)
      = some ⟨⟨300, 0, 0, 0, 60⟩, false, false, .silence⟩ := by decide
  rw [hval] at hr'
  obtain rfl : (⟨⟨300, 0, 0, 0, 60⟩, false, false, .silence⟩ : CollectResult) = r := by
    injection hr'
  exact ⟨rfl, rfl⟩


set_option maxRecDepth 1000000 in
/-- **C4 counterexample.** The retained buffer does exceed the
configured maximum: the size check runs only after a read is appended,
so the 801st consecutive 128 KB read leaves 104,988,672 retained bytes,
131,072 over the 104,857,600 limit (the remaining channel data is then
read and discarded until silence, as the drain exit shows). -/
theorem collect_buffer_exceeds_max :
    collect unboundedChan
      = some ⟨⟨1100, 800, 104988672, 801, 861⟩, true, false, .drainSilence⟩
    ∧ 104857600 < 104988672 := by
  exact ⟨by decide, by decide⟩

/-- **C4 (amended).** For every channel behaviour the collection loop
completes with at most `max_output_size` plus one maximal 128 KB read
retained, and the truncation marker is appended exactly when the size
limit was hit — in which case the loop went on reading and discarding
channel data until silence or the 30-second drain timeout (the only two
drain exits). -/
theorem collect_buffer_bounded (chan : Nat → Option Nat) :
    ∃ r, collect chan = some r
      ∧ r.st.bytes ≤ 104857600 + 131072
      ∧ (r.truncated = true ↔ (r.reason = .drainSilence ∨ r.reason = .drainTimeout)) := by
  have hsome := collectLoop_isSome chan 15200 ⟨0, 0, 0, 0, 0⟩ (by omega) (by omega)
  obtain ⟨r, hr⟩ := Option.isSome_iff_exists.mp hsome
  obtain ⟨_, h2, _, h4⟩ :=
    collectLoop_props chan 15200 _ r hr (by decide) (by decide)
  exact ⟨r, hr, h2, h4⟩

/-! ## Theorems: claim C3 -/


/-- **C3 counterexample.** The code judges this output successful (the
cleanup indicator suppresses the whole error scan), while the claim's
condition — an error match is ignored only when the matching text is
itself part of a cleanup artifact — judges it failed, since
`"permission denied"` lies outside the artifact occurrence. -/
theorem success_determination_cex :
    success_determination c3cleaned = true ∧ successSpecC3 c3cleaned = false :=
  ⟨by decide, by decide⟩

/-- **C3 (amended).** The shell-mode command is judged successful iff
the cleaned output is non-empty and either some shell-cleanup indicator
occurs somewhere in it (in which case error substrings are ignored
entirely) or no error-indicating substring occurs in it at all. -/
theorem success_determination_amended (cleaned : List Char) :
    success_determination cleaned = true ↔
      (cleaned ≠ []
       ∧ ((∃ a ∈ shell_cleanup_indicators, containsSub a (pyLower cleaned) = true)
          ∨ (∀ p ∈ error_patterns, containsSub p (pyLower cleaned) = false))) := by
  unfold success_determination
  by_cases hc : shell_cleanup_indicators.any
      (fun p => containsSub p (pyLower cleaned)) = true
  · rw [if_pos hc]
    have hex : ∃ a ∈ shell_cleanup_indicators,
        containsSub a (pyLower cleaned) = true := by
      simpa using List.any_eq_true.mp hc
    constructor
    · intro h
      exact ⟨List.length_pos.mp (of_decide_eq_true h), Or.inl hex⟩
    · intro h
      exact decide_eq_true (List.length_pos.mpr h.1)
  · rw [if_neg hc]
    by_cases he : error_patterns.any (fun p => containsSub p (pyLower cleaned)) = true
    · rw [if_pos he]
      constructor
      · intro h
        exact absurd h (by simp)
      · rintro ⟨h1, h2 | h2⟩
        · exact absurd (List.any_eq_true.mpr (by simpa using h2)) hc
        · obtain ⟨p, hp, hcp⟩ := List.any_eq_true.mp he
          have hfalse := h2 p hp
          rw [hfalse] at hcp
          exact absurd hcp (by simp)
    · rw [if_neg he]
      constructor
      · intro h
        refine ⟨List.length_pos.mp (of_decide_eq_true h), Or.inr ?_⟩
        intro p hp
        by_contra hne
        exact he (List.any_eq_true.mpr ⟨p, hp, by simpa using hne⟩)
      · intro h
        exact decide_eq_true (List.length_pos.mpr h.1)

/-! ## Theorems: claim C10 -/

/-- Splitting never yields the empty list of fields. -/
theorem splitOnChar_ne_nil (sep : Char) (l : List Char) :
    splitOnChar sep l ≠ [] := by
  cases l with
  | nil => simp [splitOnChar]
  | cons c cs =>
    unfold splitOnChar
    cases h : splitOnChar sep cs with
    | nil => simp
    | cons a as =>
      dsimp only
      split <;> simp

/-- A trailing separator contributes one trailing empty field. -/
theorem splitOnChar_append_sep (sep : Char) (xs : List Char) :
    splitOnChar sep (xs ++ [sep]) = splitOnChar sep xs ++ [[]] := by
  induction xs with
  | nil => simp [splitOnChar]
  | cons c cs ih =>
    have hne := splitOnChar_ne_nil sep cs
    cases h : splitOnChar sep cs with
    | nil => exact absurd h hne
    | cons a as =>
      show splitOnChar sep (c :: (cs ++ [sep])) = splitOnChar sep (c :: cs) ++ [[]]
      unfold splitOnChar
      rw [ih, h]
      simp only [List.cons_append]
      split <;> simp

/-- A string matching the hostname pattern is non-empty. -/
theorem hostnamePatternMatch_ne_nil {s : List Char}
    (h : hostnamePatternMatch s = true) : s ≠ [] := by
  intro hs
  rw [hs] at h
  exact absurd h (by decide)

/-- A string matching the hostname pattern does not end in a dot (its
final dot-separated field would be empty, which is not a label). -/
theorem hostnamePatternMatch_getLast_ne_dot {s : List Char}
    (h : hostnamePatternMatch s = true) (hl : s ≠ []) :
    ¬(s.getLast hl = '.') := by
  intro hdot
  have hs : s.dropLast ++ ['.'] = s := by
    rw [← hdot]
    exact List.dropLast_append_getLast hl
  have hsplit := splitOnChar_append_sep '.' s.dropLast
  rw [hs] at hsplit
  unfold hostnamePatternMatch at h
  rw [hsplit] at h
  have hmem : isLabel [] = true :=
    List.all_eq_true.mp h [] (by simp)
  exact absurd hmem (by decide)

/-- **C10 (amended).** A string matching the RFC-1123 hostname pattern,
followed by a single trailing dot, passes `validate_hostname` — for any
behaviour of the IP-literal parser — provided the total length stays
within the 253-character limit that `validate_hostname` checks before
stripping the dot. -/
theorem validate_hostname_trailing_dot (ipParse : List Char → Bool) (s : List Char)
    (hmatch : hostnamePatternMatch s = true) (hlen : s.length ≤ 252) :
    validate_hostname ipParse (s ++ ['.']) = true := by
  have hne : s ≠ [] := hostnamePatternMatch_ne_nil hmatch
  have hlast := hostnamePatternMatch_getLast_ne_dot hmatch hne
  have hstrip : rstripDots (s ++ ['.']) = s := by
    unfold rstripDots
    rw [rstrip_eq_rdropWhile]
    rw [List.rdropWhile_concat_pos _ _ '.' (by simp)]
    rw [List.rdropWhile_eq_self_iff.mpr]
    intro hl
    simp only [beq_iff_eq]
    exact hostnamePatternMatch_getLast_ne_dot hmatch hl
  unfold validate_hostname
  rw [if_neg (show ¬((s ++ ['.']).isEmpty = true) by simp),
    if_neg (show ¬(253 < (s ++ ['.']).length) by
      rw [List.length_append]
      simp only [List.length_cons, List.length_nil]
      omega)]
  split
  · rfl
  · rw [hstrip]
    exact hmatch


set_option maxRecDepth 100000 in
/-- **C10 counterexample.** The claim fails without a length bound: a
253-character valid label sequence plus its trailing dot is 254
characters, which `validate_hostname` rejects on length before ever
stripping the dot — whatever the IP-literal parser says. -/
theorem validate_hostname_trailing_dot_cex :
    hostnamePatternMatch longLabelSeq = true
    ∧ validate_hostname (fun _ => false) (longLabelSeq ++ ['.']) = false
    ∧ validate_hostname (fun _ => true) (longLabelSeq ++ ['.']) = false := by
  refine ⟨by decide, by decide, by decide⟩

/-- Witness for C10 (amended): `"example.com."` is accepted, the
trailing dot being stripped before the pattern is matched. -/
theorem validate_hostname_trailing_dot_witness :
    validate_hostname (fun _ => false) ("example.com".toList ++ ['.']) = true :=
  validate_hostname_trailing_dot (fun _ => false) "example.com".toList
    (by decide) (by decide)

/-- Witness for C5 (amended): a realistic hostname is non-empty after
sanitisation and, its sanitised form ending in a letter, a fixed point
of a second sanitisation. -/
theorem sanitize_filename_amended_witness :
    sanitize_filename "Router-1.example.com".toList ≠ []
    ∧ sanitize_filename (sanitize_filename "Router-1.example.com".toList)
      = sanitize_filename "Router-1.example.com".toList :=
  ⟨(sanitize_filename_amended "Router-1.example.com".toList).1,
    (sanitize_filename_amended "Router-1.example.com".toList).2 (by decide)⟩

end MistHelper
